import Mathlib

/-!
# RDS snapshot data source and snapshot copy resource

A shallow embedding of `internal/service/rds/snapshot_data_source.go` and
`internal/service/rds/snapshot_copy.go`, followed by the properties proved about it.

Conventions of the embedding:

* a Go pointer field (`*string`, `*time.Time`, `*bool`) is an `Option`; `none` is `nil`;
* a Go slice is a `List`;
* a function that can stop with a run-time panic returns an `Option` (or `Run`), the
  panic being `none` (or `Run.panicked`);
* remote calls are parameters of the functions that make them, and so is the routine of
  the Go standard library's `sort.Sort` for slices too long for its insertion sort.
-/

namespace Rds

/-! ## Data model -/

/-- An instant of `time.Time`, as a number of nanoseconds on the time line. -/
abbrev Time := Int

/-- The method `time.Time.Before`: the instant `t` is strictly before `u`. -/
def Time.Before (t u : Time) : Bool := decide (t < u)

/-- The fields of `rds.DBSnapshot` that the code inspects; all are pointers in Go. -/
structure DBSnapshot where
  DBSnapshotIdentifier : Option String
  DBInstanceIdentifier : Option String
  SnapshotCreateTime : Option Time
  Status : Option String
  KmsKeyId : Option String
  DBSnapshotArn : Option String
  deriving DecidableEq, Repr

/-- A Go `error` value, as far as the code tells errors apart. -/
inductive GoError where
  /-- An `awserr.Error` with its code and message. -/
  | aws (code message : String)
  /-- Any other error, such as one made by `fmt.Errorf`, with its text. -/
  | plain (text : String)
  deriving DecidableEq, Repr

/-- The method `Error()` of an error value; for an `awserr.Error` without an original
error the text is the code, a colon and the message. -/
def GoError.Error : GoError → String
  | GoError.aws code message => code ++ ": " ++ message
  | GoError.plain text => text

/-- The outcome of a call that returns an `error` and can panic. -/
inductive Run (α : Type) where
  /-- The call returned `nil`; `value` is what it produced. -/
  | ok (value : α)
  /-- The call returned the error `err`. -/
  | error (err : GoError)
  /-- The call stopped with a run-time panic. -/
  | panicked
  deriving DecidableEq, Repr

/-- The function `strings.Contains`. -/
def stringsContains (s substr : String) : Bool :=
  decide (substr.toList <:+: s.toList)

/-- The function `tfawserr.ErrMessageContains`: `err` is an `awserr.Error` with the given
code whose message contains `message`. -/
def ErrMessageContains (err : Option GoError) (code message : String) : Bool :=
  match err with
  | some (GoError.aws c m) => decide (c = code) && stringsContains m message
  | _ => false

/-- The function `aws.StringValue`: the string pointed to, or the empty string for `nil`. -/
def StringValue (v : Option String) : String :=
  match v with
  | some s => s
  | none => ""

/-! ## `rdsSnapshotSort` and `mostRecentDbSnapshot` -/

/-- The method `rdsSnapshotSort.Less`, on the two elements `a[i]` and `a[j]`. -/
def rdsSnapshotSort.Less (ai aj : DBSnapshot) : Bool :=
  match ai.SnapshotCreateTime with
  | none => true
  | some ti =>
    match aj.SnapshotCreateTime with
    | none => false
    | some tj => Time.Before ti tj

/-- The method `rdsSnapshotSort.Len`. -/
def rdsSnapshotSort.Len (a : List DBSnapshot) : Nat := a.length

/-- The method `rdsSnapshotSort.Swap`, `a[i], a[j] = a[j], a[i]`; the slice is left as it
is when an index is out of range (the sort never passes one). -/
def rdsSnapshotSort.Swap (a : List DBSnapshot) (i j : Nat) : List DBSnapshot :=
  match a[i]?, a[j]? with
  | some ai, some aj => (a.set i aj).set j ai
  | _, _ => a

/-- The inner loop of the standard library's `insertionSort`,
`for j := i; j > a && data.Less(j, j-1); j-- { data.Swap(j, j-1) }`, with `a = 0`:
the element at index `j` is swapped with its left neighbour while it is `Less` than it. -/
def insertionSortInner (data : List DBSnapshot) : Nat → List DBSnapshot
  | 0 => data
  | j + 1 =>
    match data[j + 1]?, data[j]? with
    | some x, some y =>
      if rdsSnapshotSort.Less x y then
        insertionSortInner (rdsSnapshotSort.Swap data (j + 1) j) j
      else data
    | _, _ => data

/-- The outer loop of `insertionSort`, `for i := a + 1; i < b; i++`, from the index `i`
on; `steps` is the number of iterations left, `b - i`. -/
def insertionSortOuter (data : List DBSnapshot) (i : Nat) : Nat → List DBSnapshot
  | 0 => data
  | steps + 1 => insertionSortOuter (insertionSortInner data i) (i + 1) steps

/-- The standard library's `insertionSort(data, 0, n)`. -/
def insertionSort (data : List DBSnapshot) (n : Nat) : List DBSnapshot :=
  insertionSortOuter data 1 (n - 1)

/-- A slice length up to which `sort.Sort` is `insertionSort` and nothing else: a longer
slice may first get a Shell pass or a quicksort partition, depending on the release of
the library. -/
def insertionOnly : Nat := 6

/-- The routine of `sort.Sort` for a slice longer than `insertionOnly`, which depends on
the release of the Go standard library: the calls of `data.Swap` it makes on the slice,
in order, each as its pair of indices. The library reads the slice through `Len` and
`Less` and changes it through `Swap` only. -/
abbrev LongSort := List DBSnapshot → List (Nat × Nat)

/-- The slice after a sequence of calls of `rdsSnapshotSort.Swap`. -/
def applySwaps (data : List DBSnapshot) : List (Nat × Nat) → List DBSnapshot
  | [] => data
  | (i, j) :: rest => applySwaps (rdsSnapshotSort.Swap data i j) rest

/-- The call `sort.Sort(rdsSnapshotSort(snapshots))`. The package `sort` belongs to the Go
standard library, not to the repository. On a slice of at most `insertionOnly` elements
it is the library's `insertionSort(data, 0, n)`; on a longer slice it is the routine of
the release at hand, the parameter `longSort`. -/
def sortSort (longSort : LongSort) (snapshots : List DBSnapshot) : List DBSnapshot :=
  let n := rdsSnapshotSort.Len snapshots
  if n ≤ insertionOnly then insertionSort snapshots n
  else applySwaps snapshots (longSort snapshots)

/-- The function `mostRecentDbSnapshot`: sort, then take `sortedSnapshots[len-1]`.
The result is `none` when the index is out of range (empty slice), a run-time panic. -/
def mostRecentDbSnapshot (longSort : LongSort) (snapshots : List DBSnapshot) :
    Option DBSnapshot :=
  let sortedSnapshots := sortSort longSort snapshots
  sortedSnapshots.getLast?

/-! ## `filterSnapshotsByInstanceId` -/

/-- The loop of `filterSnapshotsByInstanceId`; `*s.DBInstanceIdentifier` dereferences the
pointer, which panics (`none`) when it is `nil`. -/
def filterLoop (instanceId : String) : List DBSnapshot → List DBSnapshot → Option (List DBSnapshot)
  | [], results => some results
  | s :: rest, results =>
    match s.DBInstanceIdentifier with
    | none => none
    | some v =>
      if v = instanceId then filterLoop instanceId rest (results ++ [s])
      else filterLoop instanceId rest results

/-- The function `filterSnapshotsByInstanceId`. -/
def filterSnapshotsByInstanceId (snapshots : List DBSnapshot) (instanceId : String) :
    Option (List DBSnapshot) :=
  filterLoop instanceId snapshots []

/-! ## `dataSourceSnapshotRead` -/

/-- The configuration of the data source `aws_db_snapshot`. A string attribute is `none`
when it is not set; `d.Get` of a boolean attribute is `false` when it is not set. -/
structure SnapshotLookup where
  db_instance_identifier : Option String
  db_snapshot_identifier : Option String
  snapshot_type : Option String
  include_public : Bool
  include_shared : Bool
  most_recent : Bool
  deriving DecidableEq, Repr

/-- The method `ResourceData.GetOk` of the plugin SDK on a string attribute: the value
(the zero value `""` when unset) and whether the attribute is set to a non-zero value. -/
def GetOkString (v : Option String) : String × Bool :=
  match v with
  | some s => (s, decide (s ≠ ""))
  | none => ("", false)

/-- The method `ResourceData.GetOk` of the plugin SDK on a boolean attribute: the value
(the zero value `false` when unset) and whether the attribute is set to a non-zero value. -/
def GetOkBool (v : Option Bool) : Bool × Bool :=
  match v with
  | some b => (b, b)
  | none => (false, false)

/-- The request `rds.DescribeDBSnapshotsInput`. -/
structure DescribeDBSnapshotsInput where
  IncludePublic : Option Bool
  IncludeShared : Option Bool
  SnapshotType : Option String
  DBInstanceIdentifier : Option String
  DBSnapshotIdentifier : Option String
  deriving DecidableEq, Repr

/-- The condition of `dataSourceSnapshotRead` under which the instance identifier is
filtered on the client side (the same expression at both places of the function). -/
def sharedOrPublic (d : SnapshotLookup) : Bool :=
  let snapshotType := (GetOkString d.snapshot_type).1
  decide (snapshotType = "public") || decide (snapshotType = "shared") ||
    d.include_public || d.include_shared

/-- The request built by `dataSourceSnapshotRead` (the variable `params`). -/
def describeParams (d : SnapshotLookup) : DescribeDBSnapshotsInput :=
  let (instanceIdentifier, instanceIdentifierOk) := GetOkString d.db_instance_identifier
  let (snapshotIdentifier, snapshotIdentifierOk) := GetOkString d.db_snapshot_identifier
  let (snapshotType, snapshotTypeOk) := GetOkString d.snapshot_type
  { IncludePublic := some d.include_public
    IncludeShared := some d.include_shared
    SnapshotType := if snapshotTypeOk then some snapshotType else none
    DBInstanceIdentifier :=
      if instanceIdentifierOk then
        if sharedOrPublic d then none else some instanceIdentifier
      else none
    DBSnapshotIdentifier := if snapshotIdentifierOk then some snapshotIdentifier else none }

/-- The state written by `dbSnapshotDescriptionAttributes`: the identifier and the
attributes copied from the selected record. -/
structure SnapshotData where
  Id : String
  snapshot : DBSnapshot
  deriving DecidableEq, Repr

/-- The function `dbSnapshotDescriptionAttributes`; it always returns `nil`. -/
def dbSnapshotDescriptionAttributes (snapshot : DBSnapshot) : SnapshotData :=
  { Id := StringValue snapshot.DBSnapshotIdentifier, snapshot := snapshot }

/-- The error of a lookup without criteria. -/
def errNoCriteria : GoError :=
  GoError.plain "One of db_snapshot_identifier or db_instance_identifier must be assigned"

/-- The error of a lookup that matches no record. -/
def errNoResults : GoError :=
  GoError.plain "Your query returned no results. Please change your search criteria and try again."

/-- The error of a lookup that matches several records without `most_recent`. -/
def errMoreThanOne : GoError :=
  GoError.plain "Your query returned more than one result. Please try a more specific search criteria."

/-- The first part of `dataSourceSnapshotRead`, up to the selection step: the check of the
criteria, the remote query (`DescribeDBSnapshotsPages` yields the pages it delivered and
its error) and the client-side filter. -/
def candidates (d : SnapshotLookup)
    (DescribeDBSnapshotsPages : DescribeDBSnapshotsInput → List (List DBSnapshot) × Option GoError) :
    Run (List DBSnapshot) :=
  let (instanceIdentifier, instanceIdentifierOk) := GetOkString d.db_instance_identifier
  let snapshotIdentifierOk := (GetOkString d.db_snapshot_identifier).2
  if !instanceIdentifierOk && !snapshotIdentifierOk then Run.error errNoCriteria
  else
    let (pages, err) := DescribeDBSnapshotsPages (describeParams d)
    let snapshots := pages.foldl (fun acc page => acc ++ page) []
    match err with
    | some e => Run.error e
    | none =>
      if sharedOrPublic d && instanceIdentifierOk then
        match filterSnapshotsByInstanceId snapshots instanceIdentifier with
        | some filtered => Run.ok filtered
        | none => Run.panicked
      else Run.ok snapshots

/-- The function `dataSourceSnapshotRead`: the candidates, then the selection step. -/
def dataSourceSnapshotRead (longSort : LongSort) (d : SnapshotLookup)
    (DescribeDBSnapshotsPages : DescribeDBSnapshotsInput → List (List DBSnapshot) × Option GoError) :
    Run SnapshotData :=
  match candidates d DescribeDBSnapshotsPages with
  | Run.error e => Run.error e
  | Run.panicked => Run.panicked
  | Run.ok snapshots =>
    if snapshots.length < 1 then Run.error errNoResults
    else if snapshots.length > 1 then
      let recent := d.most_recent
      if recent then
        match mostRecentDbSnapshot longSort snapshots with
        | some snapshot => Run.ok (dbSnapshotDescriptionAttributes snapshot)
        | none => Run.panicked
      else Run.error errMoreThanOne
    else
      match snapshots.head? with
      | some snapshot => Run.ok (dbSnapshotDescriptionAttributes snapshot)
      | none => Run.panicked

/-! ## `resourceSnapshotCopyCreate`: the copy request -/

/-- A tag map, as key and value pairs. -/
abbrev TagMap := List (String × String)

/-- The configuration of the resource `aws_db_snapshot_copy`; an attribute is `none` when
it is not set. -/
structure SnapshotCopyConfig where
  copy_tags : Option Bool
  destination_region : Option String
  kms_key_id : Option String
  presigned_url : Option String
  option_group_name : Option String
  source_db_snapshot_identifier : Option String
  source_region : Option String
  tags : Option TagMap
  target_db_snapshot_identifier : Option String
  deriving DecidableEq, Repr

/-- The method `ResourceData.Get` on a string attribute: the zero value when unset. -/
def GetString (v : Option String) : String :=
  (GetOkString v).1

/-- The method `ResourceData.Get` on a map attribute: the empty map when unset. -/
def GetMap (v : Option TagMap) : TagMap :=
  match v with
  | some m => m
  | none => []

/-- The request `rds.CopyDBSnapshotInput`; `Tags` is a slice, `none` when it is `nil`. -/
structure CopyDBSnapshotInput where
  SourceRegion : Option String
  SourceDBSnapshotIdentifier : Option String
  TargetDBSnapshotIdentifier : Option String
  Tags : Option TagMap
  CopyTags : Option Bool
  KmsKeyId : Option String
  OptionGroupName : Option String
  DestinationRegion : Option String
  PreSignedUrl : Option String
  deriving DecidableEq, Repr

/-- The request built by `resourceSnapshotCopyCreate` (the variable `request`) and passed
to `conn.CopyDBSnapshot`. The conversion `Tags(keyvaluetags.New(...).IgnoreAWS())`, which
is defined elsewhere in the provider, is the parameter `toTags`. -/
def copyRequest (toTags : TagMap → Option TagMap) (d : SnapshotCopyConfig) : CopyDBSnapshotInput :=
  let tags := toTags (GetMap d.tags)
  let request : CopyDBSnapshotInput :=
    { SourceRegion := some (GetString d.source_region)
      SourceDBSnapshotIdentifier := some (GetString d.source_db_snapshot_identifier)
      TargetDBSnapshotIdentifier := some (GetString d.target_db_snapshot_identifier)
      Tags := tags
      CopyTags := none
      KmsKeyId := none
      OptionGroupName := none
      DestinationRegion := none
      PreSignedUrl := none }
  let request :=
    match GetOkBool d.copy_tags with
    | (v, true) => { request with CopyTags := some v }
    | (_, false) => request
  let request :=
    match GetOkString d.kms_key_id with
    | (v, true) => { request with KmsKeyId := some v }
    | (_, false) => request
  let request :=
    match GetOkString d.option_group_name with
    | (v, true) => { request with OptionGroupName := some v }
    | (_, false) => request
  let request :=
    match GetOkString d.destination_region with
    | (v, true) => { request with DestinationRegion := some v }
    | (_, false) => request
  let request :=
    match GetOkString d.presigned_url with
    | (v, true) => { request with PreSignedUrl := some v }
    | (_, false) => request
  request

/-! ## `resourceSnapshotCopyRead` -/

/-- The state of a snapshot copy resource: its identifier and the attributes that
`resourceSnapshotCopyRead` stores. -/
structure SnapshotCopyData where
  Id : String
  kms_key_id : Option String
  tags : TagMap
  deriving DecidableEq, Repr

/-- The function `resourceSnapshotCopyRead`. `DescribeDBSnapshots` yields the records of
the response and the error of the call; `ListTags` is the tag listing call; `ignoreTags`
stands for `tags.IgnoreAWS().IgnoreConfig(ignoreTagsConfig).Map()`. The expression
`res.DBSnapshots[0]` panics when the response holds no record. Of the attributes the
function sets, only `kms_key_id` and `tags` are keys of the schema of the resource; the
other calls of `d.Set` store nothing. -/
def resourceSnapshotCopyRead (d : SnapshotCopyData)
    (DescribeDBSnapshots : DescribeDBSnapshotsInput → List DBSnapshot × Option GoError)
    (ListTags : String → Except GoError TagMap) (ignoreTags : TagMap → TagMap) :
    Run SnapshotCopyData :=
  let req : DescribeDBSnapshotsInput :=
    { IncludePublic := none, IncludeShared := none, SnapshotType := none,
      DBInstanceIdentifier := none, DBSnapshotIdentifier := some d.Id }
  let (res, err) := DescribeDBSnapshots req
  if ErrMessageContains err "InvalidDBSnapshot.NotFound" "" then
    Run.ok { d with Id := "" }
  else
    match res with
    | [] => Run.panicked
    | snapshot :: _ =>
      let arn := StringValue snapshot.DBSnapshotArn
      let d := { d with kms_key_id := snapshot.KmsKeyId }
      match ListTags arn with
      | Except.error e =>
        Run.error (GoError.plain
          ("error listing tags for RDS DB Snapshot (" ++ arn ++ "): " ++ e.Error))
      | Except.ok tags => Run.ok { d with tags := ignoreTags tags }

/-! ## `resourceSnapshotCopyDelete` -/

/-- The type `resource.RetryError`: an error and whether the call may be tried again. -/
structure RetryError where
  Err : GoError
  Retryable : Bool
  deriving DecidableEq, Repr

/-- The function `resource.RetryableError`. -/
def RetryableError (err : GoError) : RetryError := { Err := err, Retryable := true }

/-- The function `resource.NonRetryableError`. -/
def NonRetryableError (err : GoError) : RetryError := { Err := err, Retryable := false }

/-- The function passed to `resource.Retry` by `resourceSnapshotCopyDelete`, on the error
`err` of its call of `conn.DeleteDBSnapshot` (`none` is `nil`). -/
def deleteAttempt (err : Option GoError) : Option RetryError :=
  match err with
  | none => none
  | some e =>
    if ErrMessageContains (some e) "SnapshotInUse" "" then
      some (RetryableError (GoError.plain "RDS SnapshotInUse - trying again while it detaches"))
    else if ErrMessageContains (some e) "InvalidSnapshot.NotFound" "" then none
    else some (NonRetryableError e)

/-- The value `resource.Retry` returns: `nil`, an error reported by the retried function,
or the time-out error of a window that closed before the function returned. -/
inductive RetryResult where
  | success
  | failed (err : GoError)
  | timedOut
  deriving DecidableEq, Repr

/-- The `error` value of a result that is not the time-out (`none` is `nil`). -/
def RetryResult.err : RetryResult → Option GoError
  | RetryResult.failed e => some e
  | _ => none

/-- The function `resource.Retry` of the plugin SDK, a library the provider uses. It calls
`f` until `f` returns `nil` or a non-retryable error, or until its window closes. The
window is given as `budget`, the number of calls of `f` that are made and return before
it closes; with a budget of 0 the first call is made and is still pending when the window
closes. `calls` counts the remote calls made so far (`f` is given that count, the index
of the call it makes) and `resultErr` is the error of the last call of `f` that returned,
`none` while no call has. When the window closes, the result is `resultErr` if a call has
returned (the last retryable error takes precedence over the time-out), and the time-out
error otherwise: the pending first call is counted and its answer is never read. -/
def Retry (f : Nat → Option RetryError) : Nat → Nat → Option GoError → RetryResult × Nat
  | 0, calls, none => (RetryResult.timedOut, calls + 1)
  | 0, calls, some resultErr => (RetryResult.failed resultErr, calls)
  | budget + 1, calls, _ =>
    match f calls with
    | none => (RetryResult.success, calls + 1)
    | some rerr =>
      if rerr.Retryable then Retry f budget (calls + 1) (some rerr.Err)
      else (RetryResult.failed rerr.Err, calls + 1)

/-- Modelled from the spec: the function `tfresource.TimedOut`, which is defined
outside the two source files: the error is the time-out error of `resource.Retry`. -/
def TimedOut (result : RetryResult) : Bool :=
  match result with
  | RetryResult.timedOut => true
  | _ => false

/-- The end of `resourceSnapshotCopyDelete`: `if err != nil` the error is wrapped in a
message, otherwise `nil` is returned. The second component is the number of delete calls
made. -/
def deleteResult (err : Option GoError) (calls : Nat) : Option GoError × Nat :=
  match err with
  | some e => (some (GoError.plain ("Error deleting RDS snapshot copy: " ++ e.Error)), calls)
  | none => (none, calls)

/-- The function `resourceSnapshotCopyDelete`. The backend is `DeleteDBSnapshot`: the error
(`none` is `nil`) of the `k`-th delete call it receives. `budget` is the number of delete
calls that return inside the retry window of five minutes. The result is the error
returned and the number of delete calls made. -/
def resourceSnapshotCopyDelete (budget : Nat) (DeleteDBSnapshot : Nat → Option GoError) :
    Option GoError × Nat :=
  let (result, calls) := Retry (fun k => deleteAttempt (DeleteDBSnapshot k)) budget 0 none
  if TimedOut result then
    let err := DeleteDBSnapshot calls
    if ErrMessageContains err "InvalidDBSnapshot.NotFound" "" then (none, calls + 1)
    else deleteResult err (calls + 1)
  else deleteResult result.err calls

/-! ## Notions used in the statements -/

/-- The inner loop of `insertionSort` on lists: `x` moves left past every neighbour it is
`Less` than. The processed part of the slice is given nearest neighbour first (in
reverse), and so is the result. -/
def insertionInner (x : DBSnapshot) : List DBSnapshot → List DBSnapshot
  | [] => [x]
  | p :: ps => if rdsSnapshotSort.Less x p then p :: insertionInner x ps else x :: p :: ps

/-- The outer loop of `insertionSort` on lists: `done` is the processed part of the slice
in reverse, `todo` the part still to be processed. -/
def insertionOuter : List DBSnapshot → List DBSnapshot → List DBSnapshot
  | done, [] => done.reverse
  | done, x :: todo => insertionOuter (insertionInner x done) todo

/-- The record kept at the end of the slice when `x` has been inserted after `h` was the
last element: `h` stays last exactly when `x` is `Less` than it. -/
def keepLast (h x : DBSnapshot) : DBSnapshot :=
  if rdsSnapshotSort.Less x h then h else x

/-- The record `r` is not before `x`: when `x` has a timestamp, `r` has one too and it is
not `Before` the timestamp of `x`. -/
def NotBefore (r x : DBSnapshot) : Prop :=
  ∀ tx, x.SnapshotCreateTime = some tx →
    ∃ tr, r.SnapshotCreateTime = some tr ∧ Time.Before tr tx = false

/-- A record with the given snapshot identifier, instance identifier and creation time,
and no other attribute. -/
def snapshotOf (id owner : Option String) (created : Option Time) : DBSnapshot :=
  { DBSnapshotIdentifier := id, DBInstanceIdentifier := owner, SnapshotCreateTime := created,
    Status := none, KmsKeyId := none, DBSnapshotArn := none }

/-- A long-slice routine that makes no call of `Swap`; it stands in where the slice is
short and the routine is never run. -/
def noSwaps : LongSort := fun _ => []

/-- A lookup by instance identifier that includes shared snapshots and asks for the most
recent one. -/
def lookupShared : SnapshotLookup :=
  { db_instance_identifier := some "db-1", db_snapshot_identifier := none, snapshot_type := none,
    include_public := false, include_shared := true, most_recent := true }

/-- A remote side that delivers three records on two pages, two of them of instance
`db-1`. -/
def pagesThree (_ : DescribeDBSnapshotsInput) : List (List DBSnapshot) × Option GoError :=
  ([[snapshotOf (some "a") (some "db-1") (some 1), snapshotOf (some "b") (some "db-2") (some 9)],
    [snapshotOf (some "c") (some "db-1") (some 5)]], none)

/-- A backend whose first `n` delete calls report the snapshot in use and whose later
calls fail with `final`. -/
def inUseThen (n : Nat) (final : Option GoError) (k : Nat) : Option GoError :=
  if k < n then some (GoError.aws "SnapshotInUse" "the snapshot is in use") else final

/-- A configuration of the copy resource in which every optional attribute is set, the
tag-copy flag to `false` and the KMS key to the empty string. -/
def copyConfigZero : SnapshotCopyConfig :=
  { copy_tags := some false, destination_region := some "eu-west-1", kms_key_id := some "",
    presigned_url := some "https://example.com/copy", option_group_name := some "og-1",
    source_db_snapshot_identifier := some "src-1", source_region := some "us-west-2",
    tags := some [("env", "test")], target_db_snapshot_identifier := some "dst-1" }

/-- A describe call that fails with a throttling error and delivers no record. -/
def describeThrottled (_ : DescribeDBSnapshotsInput) : List DBSnapshot × Option GoError :=
  ([], some (GoError.aws "Throttling" "Rate exceeded"))

/-! ## The insertion sort on lists -/

theorem getElem?_mid (A : List DBSnapshot) (y x : DBSnapshot) (B : List DBSnapshot) :
    (A ++ y :: x :: B)[A.length]? = some y ∧ (A ++ y :: x :: B)[A.length + 1]? = some x := by
  constructor
  · rw [List.getElem?_append_right (le_refl _)]
    simp
  · rw [List.getElem?_append_right (by omega)]
    simp

theorem Swap_mid (A : List DBSnapshot) (y x : DBSnapshot) (B : List DBSnapshot) :
    rdsSnapshotSort.Swap (A ++ y :: x :: B) (A.length + 1) A.length = A ++ x :: y :: B := by
  obtain ⟨h0, h1⟩ := getElem?_mid A y x B
  simp only [rdsSnapshotSort.Swap, h0, h1]
  induction A with
  | nil => simp
  | cons a A ih => simp [ih (getElem?_mid A y x B).1 (getElem?_mid A y x B).2]

theorem insertionInner_length (x : DBSnapshot) (done : List DBSnapshot) :
    (insertionInner x done).length = done.length + 1 := by
  induction done with
  | nil => rfl
  | cons p ps ih =>
    by_cases hl : rdsSnapshotSort.Less x p = true
    · simp [insertionInner, hl, ih]
    · simp [insertionInner, hl]

theorem insertionSortInner_eq (done : List DBSnapshot) :
    ∀ (x : DBSnapshot) (rest : List DBSnapshot),
      insertionSortInner (done.reverse ++ x :: rest) done.length =
        (insertionInner x done).reverse ++ rest := by
  induction done with
  | nil => intro x rest; simp [insertionSortInner, insertionInner]
  | cons y done ih =>
    intro x rest
    have hdata : (y :: done).reverse ++ x :: rest = done.reverse ++ y :: x :: rest := by simp
    have hlen : (y :: done).length = done.reverse.length + 1 := by simp
    obtain ⟨h0, h1⟩ := getElem?_mid done.reverse y x rest
    rw [hdata, hlen]
    by_cases hl : rdsSnapshotSort.Less x y = true
    · simp only [insertionSortInner, h0, h1, hl, if_true, Swap_mid]
      rw [List.length_reverse, ih x (y :: rest)]
      simp [insertionInner, hl]
    · simp only [insertionSortInner, h0, h1, hl]
      simp [insertionInner, hl]

theorem insertionSortOuter_eq (todo : List DBSnapshot) :
    ∀ done : List DBSnapshot,
      insertionSortOuter (done.reverse ++ todo) done.length todo.length =
        insertionOuter done todo := by
  induction todo with
  | nil => intro done; simp [insertionSortOuter, insertionOuter]
  | cons x todo ih =>
    intro done
    simp only [List.length_cons, insertionSortOuter, insertionOuter, insertionSortInner_eq]
    rw [← insertionInner_length x done]
    exact ih (insertionInner x done)

/-- The library's `insertionSort(data, 0, n)` computes the insertion sort on lists. -/
theorem insertionSort_eq (snapshots : List DBSnapshot) :
    insertionSort snapshots (rdsSnapshotSort.Len snapshots) = insertionOuter [] snapshots := by
  cases snapshots with
  | nil => rfl
  | cons x rest =>
    have h := insertionSortOuter_eq rest [x]
    simp only [List.reverse_cons, List.reverse_nil, List.nil_append, List.singleton_append,
      List.length_singleton] at h
    simp only [rdsSnapshotSort.Len, insertionSort, List.length_cons,
      Nat.add_sub_cancel, h]
    rfl

/-- On a slice of at most `insertionOnly` elements the embedding of `sort.Sort` computes
the insertion sort on lists, whatever the routine for longer slices is. -/
theorem sortSort_eq (longSort : LongSort) (snapshots : List DBSnapshot)
    (hlen : snapshots.length ≤ insertionOnly) :
    sortSort longSort snapshots = insertionOuter [] snapshots := by
  have h : rdsSnapshotSort.Len snapshots ≤ insertionOnly := hlen
  simp only [sortSort, h, if_true]
  exact insertionSort_eq snapshots

theorem Swap_length (a : List DBSnapshot) (i j : Nat) :
    (rdsSnapshotSort.Swap a i j).length = a.length := by
  unfold rdsSnapshotSort.Swap
  split <;> simp

theorem applySwaps_length (swaps : List (Nat × Nat)) :
    ∀ data : List DBSnapshot, (applySwaps data swaps).length = data.length := by
  induction swaps with
  | nil => intro data; rfl
  | cons p rest ih =>
    intro data
    rcases p with ⟨i, j⟩
    simp only [applySwaps, ih, Swap_length]

theorem insertionOuter_length (todo : List DBSnapshot) :
    ∀ done : List DBSnapshot, (insertionOuter done todo).length = done.length + todo.length := by
  induction todo with
  | nil => intro done; simp [insertionOuter]
  | cons x todo ih =>
    intro done
    simp only [insertionOuter, ih, insertionInner_length, List.length_cons]
    omega

/-- The call of `sort.Sort` keeps the length of the slice, whatever the routine for longer
slices is. -/
theorem sortSort_length (longSort : LongSort) (snapshots : List DBSnapshot) :
    (sortSort longSort snapshots).length = snapshots.length := by
  by_cases h : rdsSnapshotSort.Len snapshots ≤ insertionOnly
  · simp only [sortSort, h, if_true]
    rw [insertionSort_eq, insertionOuter_length]
    simp
  · simp only [sortSort, h, if_false]
    exact applySwaps_length _ _

/-- On a non-empty slice `mostRecentDbSnapshot` returns a record, whatever the routine for
longer slices is. -/
theorem mostRecentDbSnapshot_some (longSort : LongSort) (snapshots : List DBSnapshot)
    (hne : snapshots ≠ []) : ∃ r, mostRecentDbSnapshot longSort snapshots = some r := by
  cases hr : mostRecentDbSnapshot longSort snapshots with
  | some r => exact ⟨r, rfl⟩
  | none =>
    have hnil : sortSort longSort snapshots = [] := by
      simpa [mostRecentDbSnapshot] using hr
    have hlen := sortSort_length longSort snapshots
    rw [hnil] at hlen
    exact absurd (List.length_eq_zero.mp hlen.symm) hne

/-! ## The most recent record -/

theorem notBefore_refl (r : DBSnapshot) : NotBefore r r := by
  intro tx h
  exact ⟨tx, h, by simp [Time.Before]⟩

theorem notBefore_trans {a b c : DBSnapshot} (hab : NotBefore a b) (hbc : NotBefore b c) :
    NotBefore a c := by
  intro tc hc
  obtain ⟨tb, hb, hbc'⟩ := hbc tc hc
  obtain ⟨ta, ha, hab'⟩ := hab tb hb
  refine ⟨ta, ha, ?_⟩
  simp only [Time.Before, decide_eq_false_iff_not, not_lt] at *
  exact le_trans hbc' hab'

theorem keepLast_notBefore_left (h x : DBSnapshot) : NotBefore (keepLast h x) h := by
  unfold keepLast
  by_cases hl : rdsSnapshotSort.Less x h = true
  · simp only [hl, if_true]
    exact notBefore_refl h
  · simp only [hl]
    intro th hth
    cases hx : x.SnapshotCreateTime with
    | none => simp [rdsSnapshotSort.Less, hx] at hl
    | some tx =>
      refine ⟨tx, by simp [hx], ?_⟩
      simpa [rdsSnapshotSort.Less, hx, hth] using hl

theorem keepLast_notBefore_right (h x : DBSnapshot) : NotBefore (keepLast h x) x := by
  unfold keepLast
  by_cases hl : rdsSnapshotSort.Less x h = true
  · simp only [hl, if_true]
    intro tx hx
    cases hh : h.SnapshotCreateTime with
    | none => simp [rdsSnapshotSort.Less, hx, hh] at hl
    | some th =>
      refine ⟨th, rfl, ?_⟩
      simp only [rdsSnapshotSort.Less, hx, hh, Time.Before, decide_eq_true_eq] at hl
      simp only [Time.Before, decide_eq_false_iff_not, not_lt]
      exact le_of_lt hl
  · simp only [hl]
    exact notBefore_refl x

theorem keepLast_mem (h x : DBSnapshot) : keepLast h x = h ∨ keepLast h x = x := by
  unfold keepLast
  split
  · exact Or.inl rfl
  · exact Or.inr rfl

theorem insertionInner_cons (x p : DBSnapshot) (ps : List DBSnapshot) :
    ∃ qs, insertionInner x (p :: ps) = keepLast p x :: qs := by
  unfold keepLast
  by_cases hl : rdsSnapshotSort.Less x p = true
  · exact ⟨insertionInner x ps, by simp [insertionInner, hl]⟩
  · exact ⟨p :: ps, by simp [insertionInner, hl]⟩

theorem insertionOuter_getLast (todo : List DBSnapshot) :
    ∀ (p : DBSnapshot) (ps : List DBSnapshot),
      (insertionOuter (p :: ps) todo).getLast? = some (todo.foldl keepLast p) := by
  induction todo with
  | nil => intro p ps; simp [insertionOuter]
  | cons x todo ih =>
    intro p ps
    obtain ⟨qs, hqs⟩ := insertionInner_cons x p ps
    simp only [insertionOuter, hqs, List.foldl_cons]
    exact ih (keepLast p x) qs

/-- On a non-empty slice of at most `insertionOnly` elements `mostRecentDbSnapshot` is a
left fold of `keepLast`. -/
theorem mostRecentDbSnapshot_cons (longSort : LongSort) (x : DBSnapshot)
    (rest : List DBSnapshot) (hlen : (x :: rest).length ≤ insertionOnly) :
    mostRecentDbSnapshot longSort (x :: rest) = some (rest.foldl keepLast x) := by
  simp only [mostRecentDbSnapshot, sortSort_eq longSort (x :: rest) hlen, insertionOuter,
    insertionInner]
  exact insertionOuter_getLast rest x []

theorem foldl_keepLast_spec (rest : List DBSnapshot) :
    ∀ h : DBSnapshot, rest.foldl keepLast h ∈ h :: rest ∧
      ∀ x ∈ h :: rest, NotBefore (rest.foldl keepLast h) x := by
  induction rest with
  | nil =>
    intro h
    simp only [List.foldl_nil, List.mem_singleton, true_and]
    intro x hx
    subst hx
    exact notBefore_refl _
  | cons y rest ih =>
    intro h
    obtain ⟨hmem, hmax⟩ := ih (keepLast h y)
    simp only [List.foldl_cons]
    constructor
    · rcases List.mem_cons.mp hmem with h1 | h1
      · rcases keepLast_mem h y with h2 | h2
        · rw [h1, h2]; exact List.mem_cons_self _ _
        · rw [h1, h2]; exact List.mem_cons_of_mem _ (List.mem_cons_self _ _)
      · exact List.mem_cons_of_mem _ (List.mem_cons_of_mem _ h1)
    · intro x hx
      have hk := hmax (keepLast h y) (List.mem_cons_self _ _)
      rcases List.mem_cons.mp hx with h1 | h1
      · subst h1
        exact notBefore_trans hk (keepLast_notBefore_left _ y)
      · rcases List.mem_cons.mp h1 with h2 | h2
        · subst h2
          exact notBefore_trans hk (keepLast_notBefore_right h _)
        · exact hmax x (List.mem_cons_of_mem _ h2)

/-- On a slice of at most `insertionOnly` records the result of `mostRecentDbSnapshot` does
not depend on the routine for longer slices. -/
theorem mostRecentDbSnapshot_short (longSort longSort2 : LongSort) (snapshots : List DBSnapshot)
    (hlen : snapshots.length ≤ insertionOnly) :
    mostRecentDbSnapshot longSort snapshots = mostRecentDbSnapshot longSort2 snapshots := by
  simp only [mostRecentDbSnapshot, sortSort_eq _ snapshots hlen]

/-- On a non-empty slice of at most `insertionOnly` records, where `sort.Sort` is the
insertion sort, `mostRecentDbSnapshot` returns a record of the slice that is not before
any record of the slice. -/
theorem mostRecentDbSnapshot_max_short (longSort : LongSort) (snapshots : List DBSnapshot)
    (hne : snapshots ≠ []) (hlen : snapshots.length ≤ insertionOnly) :
    ∃ r, mostRecentDbSnapshot longSort snapshots = some r ∧ r ∈ snapshots ∧
      ∀ x ∈ snapshots, ∀ tx, x.SnapshotCreateTime = some tx →
        ∃ tr, r.SnapshotCreateTime = some tr ∧ Time.Before tr tx = false := by
  cases snapshots with
  | nil => exact absurd rfl hne
  | cons x rest =>
    obtain ⟨hmem, hmax⟩ := foldl_keepLast_spec rest x
    exact ⟨rest.foldl keepLast x, mostRecentDbSnapshot_cons longSort x rest hlen, hmem, hmax⟩

/-! ## The selection step of the lookup -/

/-- C3: for every candidate list that reaches the selection step of
`dataSourceSnapshotRead`: an empty list gives the no-results error; a list of more than
one record gives the more-than-one-result error when `most_recent` is false; a list of
exactly one record selects that record, whatever `most_recent` is; and a list of more than
one record selects the result of `mostRecentDbSnapshot` when `most_recent` is true. -/
theorem dataSourceSnapshotRead_selection (longSort : LongSort) (d : SnapshotLookup)
    (conn : DescribeDBSnapshotsInput → List (List DBSnapshot) × Option GoError)
    (snapshots : List DBSnapshot) (hcand : candidates d conn = Run.ok snapshots) :
    (snapshots = [] → dataSourceSnapshotRead longSort d conn = Run.error errNoResults) ∧
    (1 < snapshots.length → d.most_recent = false →
      dataSourceSnapshotRead longSort d conn = Run.error errMoreThanOne) ∧
    (∀ s, snapshots = [s] →
      dataSourceSnapshotRead longSort d conn = Run.ok (dbSnapshotDescriptionAttributes s)) ∧
    (1 < snapshots.length → d.most_recent = true →
      ∃ r, mostRecentDbSnapshot longSort snapshots = some r ∧
        dataSourceSnapshotRead longSort d conn =
          Run.ok (dbSnapshotDescriptionAttributes r)) := by
  refine ⟨?_, ?_, ?_, ?_⟩
  · intro h
    simp [dataSourceSnapshotRead, hcand, h]
  · intro hlen hrecent
    have h1 : ¬ snapshots.length < 1 := by omega
    simp [dataSourceSnapshotRead, hcand, hlen, h1, hrecent]
  · intro s h
    simp [dataSourceSnapshotRead, hcand, h]
  · intro hlen hrecent
    have h1 : ¬ snapshots.length < 1 := by omega
    have hne : snapshots ≠ [] := by
      intro h
      rw [h] at hlen
      simp at hlen
    obtain ⟨r, hr⟩ := mostRecentDbSnapshot_some longSort snapshots hne
    exact ⟨r, hr, by simp [dataSourceSnapshotRead, hcand, hlen, h1, hrecent, hr]⟩

/-- The witness of C3: the shared lookup finds two candidates and selects the later. -/
theorem dataSourceSnapshotRead_selection_witness :
    candidates lookupShared pagesThree =
        Run.ok [snapshotOf (some "a") (some "db-1") (some 1),
          snapshotOf (some "c") (some "db-1") (some 5)] ∧
    ∃ r, mostRecentDbSnapshot noSwaps [snapshotOf (some "a") (some "db-1") (some 1),
          snapshotOf (some "c") (some "db-1") (some 5)] = some r ∧
      dataSourceSnapshotRead noSwaps lookupShared pagesThree =
        Run.ok (dbSnapshotDescriptionAttributes r) :=
  ⟨by decide,
    (dataSourceSnapshotRead_selection noSwaps lookupShared pagesThree _ (by decide)).2.2.2
      (by decide) (by decide)⟩

/-! ## The client-side filter -/

theorem filterLoop_eq (instanceId : String) (snapshots : List DBSnapshot) :
    ∀ results : List DBSnapshot, (∀ s ∈ snapshots, s.DBInstanceIdentifier ≠ none) →
      filterLoop instanceId snapshots results =
        some (results ++ snapshots.filter (fun s => decide (s.DBInstanceIdentifier = some instanceId))) := by
  induction snapshots with
  | nil => intro results _; simp [filterLoop]
  | cons s rest ih =>
    intro results hall
    have hrest : ∀ x ∈ rest, x.DBInstanceIdentifier ≠ none :=
      fun x hx => hall x (List.mem_cons_of_mem _ hx)
    cases hs : s.DBInstanceIdentifier with
    | none => exact absurd hs (hall s (List.mem_cons_self _ _))
    | some v =>
      by_cases hv : v = instanceId
      · simp [filterLoop, hs, hv, ih _ hrest]
      · simp [filterLoop, hs, hv, ih _ hrest]

/-- C2: on a list of records that all have an owning-instance identifier,
`filterSnapshotsByInstanceId` returns exactly the records whose identifier equals
`instanceId`, in the order of the input: the result is the filtered list, it is a sublist
of the input, a record is in it exactly when it is in the input and matches, and it is
empty when no record matches. -/
theorem filterSnapshotsByInstanceId_spec (snapshots : List DBSnapshot) (instanceId : String)
    (hall : ∀ s ∈ snapshots, s.DBInstanceIdentifier ≠ none) :
    ∃ results, filterSnapshotsByInstanceId snapshots instanceId = some results ∧
      results = snapshots.filter (fun s => decide (s.DBInstanceIdentifier = some instanceId)) ∧
      results.Sublist snapshots ∧
      (∀ s, s ∈ results ↔ s ∈ snapshots ∧ s.DBInstanceIdentifier = some instanceId) ∧
      ((∀ s ∈ snapshots, s.DBInstanceIdentifier ≠ some instanceId) → results = []) := by
  refine ⟨_, ?_, rfl, List.filter_sublist _, ?_, ?_⟩
  · simp [filterSnapshotsByInstanceId, filterLoop_eq instanceId snapshots [] hall]
  · intro s
    simp [List.mem_filter]
  · intro hno
    simp only [List.filter_eq_nil_iff, decide_eq_true_eq]
    exact hno

/-- The witness of C2: of three records, the two of instance `db-1` are kept in order. -/
theorem filterSnapshotsByInstanceId_spec_witness :
    (∀ s ∈ [snapshotOf (some "a") (some "db-1") none, snapshotOf (some "b") (some "db-2") none,
        snapshotOf (some "c") (some "db-1") none], s.DBInstanceIdentifier ≠ none) ∧
    ∃ results, filterSnapshotsByInstanceId
        [snapshotOf (some "a") (some "db-1") none, snapshotOf (some "b") (some "db-2") none,
          snapshotOf (some "c") (some "db-1") none] "db-1" = some results ∧
      results = [snapshotOf (some "a") (some "db-1") none, snapshotOf (some "b") (some "db-2") none,
          snapshotOf (some "c") (some "db-1") none].filter
            (fun s => decide (s.DBInstanceIdentifier = some "db-1")) ∧
      results.Sublist [snapshotOf (some "a") (some "db-1") none,
          snapshotOf (some "b") (some "db-2") none, snapshotOf (some "c") (some "db-1") none] ∧
      (∀ s, s ∈ results ↔ s ∈ [snapshotOf (some "a") (some "db-1") none,
          snapshotOf (some "b") (some "db-2") none, snapshotOf (some "c") (some "db-1") none] ∧
        s.DBInstanceIdentifier = some "db-1") ∧
      ((∀ s ∈ [snapshotOf (some "a") (some "db-1") none, snapshotOf (some "b") (some "db-2") none,
          snapshotOf (some "c") (some "db-1") none], s.DBInstanceIdentifier ≠ some "db-1") →
        results = []) :=
  ⟨by simp [snapshotOf], filterSnapshotsByInstanceId_spec _ "db-1" (by simp [snapshotOf])⟩

theorem filterLoop_nil (instanceId : String) (snapshots : List DBSnapshot) :
    ∀ results : List DBSnapshot, (∃ s ∈ snapshots, s.DBInstanceIdentifier = none) →
      filterLoop instanceId snapshots results = none := by
  induction snapshots with
  | nil => intro results h; simp at h
  | cons s rest ih =>
    intro results h
    cases hs : s.DBInstanceIdentifier with
    | none => simp [filterLoop, hs]
    | some v =>
      have hrest : ∃ x ∈ rest, x.DBInstanceIdentifier = none := by
        obtain ⟨x, hx, hnone⟩ := h
        rcases List.mem_cons.mp hx with h1 | h1
        · rw [h1, hs] at hnone; exact absurd hnone (by simp)
        · exact ⟨x, h1, hnone⟩
      by_cases hv : v = instanceId
      · simp [filterLoop, hs, hv, ih _ hrest]
      · simp [filterLoop, hs, hv, ih _ hrest]

/-- The filter panics on every list that holds a record without an owning-instance
identifier. -/
theorem filterSnapshotsByInstanceId_nil (snapshots : List DBSnapshot) (instanceId : String)
    (h : ∃ s ∈ snapshots, s.DBInstanceIdentifier = none) :
    filterSnapshotsByInstanceId snapshots instanceId = none :=
  filterLoop_nil instanceId snapshots [] h

/-- C7: on a list holding a record whose owning-instance identifier is absent,
`filterSnapshotsByInstanceId` does not return: the dereference of the `nil` identifier
panics, whether or not the other records match. -/
theorem filterSnapshotsByInstanceId_nil_panics :
    filterSnapshotsByInstanceId
      [snapshotOf (some "a") (some "db-1") none, snapshotOf (some "b") none none] "db-1" = none := by
  decide

/-! ## The comparator as an order -/

theorem Less_iff (a b : DBSnapshot) :
    rdsSnapshotSort.Less a b = true ↔
      a.SnapshotCreateTime = none ∨
        ∃ ta tb, a.SnapshotCreateTime = some ta ∧ b.SnapshotCreateTime = some tb ∧ ta < tb := by
  cases ha : a.SnapshotCreateTime with
  | none => simp [rdsSnapshotSort.Less, ha]
  | some ta =>
    cases hb : b.SnapshotCreateTime with
    | none => simp [rdsSnapshotSort.Less, ha, hb]
    | some tb => simp [rdsSnapshotSort.Less, ha, hb, Time.Before]

/-- C10, the counterexample: a record without a timestamp is `Less` than itself, and two
different records without a timestamp are each `Less` than the other. -/
theorem Less_not_strict :
    rdsSnapshotSort.Less (snapshotOf (some "a") none none) (snapshotOf (some "a") none none) = true ∧
    rdsSnapshotSort.Less (snapshotOf (some "a") none none) (snapshotOf (some "b") none none) = true ∧
    rdsSnapshotSort.Less (snapshotOf (some "b") none none) (snapshotOf (some "a") none none) = true := by
  decide

/-- C10, as amended: `rdsSnapshotSort.Less` holds for `a` and `b` exactly when `a` has no
timestamp or both have one and that of `a` is strictly before that of `b`; it is
transitive; a record without a timestamp is `Less` than every record and no record with a
timestamp is `Less` than it; a record is `Less` than itself exactly when it has no
timestamp; and `a` and `b` are each `Less` than the other exactly when neither has a
timestamp. -/
theorem Less_order (a b c : DBSnapshot) :
    (rdsSnapshotSort.Less a b = true ↔
      a.SnapshotCreateTime = none ∨
        ∃ ta tb, a.SnapshotCreateTime = some ta ∧ b.SnapshotCreateTime = some tb ∧
          Time.Before ta tb = true) ∧
    (rdsSnapshotSort.Less a b = true → rdsSnapshotSort.Less b c = true →
      rdsSnapshotSort.Less a c = true) ∧
    (a.SnapshotCreateTime = none → rdsSnapshotSort.Less a b = true) ∧
    (a.SnapshotCreateTime = none → b.SnapshotCreateTime ≠ none →
      rdsSnapshotSort.Less b a = false) ∧
    (rdsSnapshotSort.Less a a = true ↔ a.SnapshotCreateTime = none) ∧
    (rdsSnapshotSort.Less a b = true ∧ rdsSnapshotSort.Less b a = true ↔
      a.SnapshotCreateTime = none ∧ b.SnapshotCreateTime = none) := by
  refine ⟨?_, ?_, ?_, ?_, ?_, ?_⟩
  · rw [Less_iff]; simp [Time.Before]
  · rw [Less_iff, Less_iff, Less_iff]
    rintro (h1 | ⟨ta, tb, h1, h2, h3⟩) h4
    · exact Or.inl h1
    · rcases h4 with h4 | ⟨tb', tc, h4, h5, h6⟩
      · rw [h2] at h4; exact absurd h4 (by simp)
      · rw [h2] at h4
        cases h4
        exact Or.inr ⟨ta, tc, h1, h5, lt_trans h3 h6⟩
  · intro h; rw [Less_iff]; exact Or.inl h
  · intro ha hb
    cases hb' : b.SnapshotCreateTime with
    | none => exact absurd hb' hb
    | some tb => simp [rdsSnapshotSort.Less, ha, hb']
  · rw [Less_iff]
    constructor
    · rintro (h | ⟨ta, tb, h1, h2, h3⟩)
      · exact h
      · rw [h1] at h2; cases h2; exact absurd h3 (lt_irrefl _)
    · exact Or.inl
  · rw [Less_iff, Less_iff]
    constructor
    · rintro ⟨h1 | ⟨ta, tb, h1, h2, h3⟩, h4 | ⟨tb', ta', h4, h5, h6⟩⟩
      · exact ⟨h1, h4⟩
      · rw [h1] at h5; exact absurd h5 (by simp)
      · rw [h2] at h4; exact absurd h4 (by simp)
      · rw [h1] at h5; rw [h2] at h4
        cases h4; cases h5
        exact absurd h3 (not_lt_of_lt h6)
    · rintro ⟨h1, h2⟩
      exact ⟨Or.inl h1, Or.inl h2⟩

/-! ## Ties in the selection -/

theorem foldl_keepLast_stay (r : DBSnapshot) (post : List DBSnapshot)
    (h : ∀ x ∈ post, rdsSnapshotSort.Less x r = true) : post.foldl keepLast r = r := by
  induction post with
  | nil => rfl
  | cons y post ih =>
    have hy : keepLast r y = r := by simp [keepLast, h y (List.mem_cons_self _ _)]
    simp only [List.foldl_cons, hy]
    exact ih (fun x hx => h x (List.mem_cons_of_mem _ hx))

theorem mostRecentDbSnapshot_split (longSort : LongSort) (pre post : List DBSnapshot)
    (r : DBSnapshot) (t : Time) (hlen : (pre ++ r :: post).length ≤ insertionOnly)
    (hr : r.SnapshotCreateTime = some t)
    (hpre : ∀ x ∈ pre, ∀ tx, x.SnapshotCreateTime = some tx → Time.Before t tx = false)
    (hpost : ∀ x ∈ post, ∀ tx, x.SnapshotCreateTime = some tx → Time.Before tx t = true) :
    mostRecentDbSnapshot longSort (pre ++ r :: post) = some r := by
  have hstay : post.foldl keepLast r = r := by
    apply foldl_keepLast_stay
    intro x hx
    cases hxt : x.SnapshotCreateTime with
    | none => simp [rdsSnapshotSort.Less, hxt]
    | some tx => simpa [rdsSnapshotSort.Less, hxt, hr] using hpost x hx tx hxt
  cases pre with
  | nil =>
    rw [List.nil_append] at hlen ⊢
    rw [mostRecentDbSnapshot_cons longSort r post hlen, hstay]
  | cons p pre =>
    have hmem := (foldl_keepLast_spec pre p).1
    have hl : rdsSnapshotSort.Less r (pre.foldl keepLast p) = false := by
      cases hpt : (pre.foldl keepLast p).SnapshotCreateTime with
      | none => simp [rdsSnapshotSort.Less, hr, hpt]
      | some tp => simp [rdsSnapshotSort.Less, hr, hpt, hpre _ hmem tp hpt]
    have hh : keepLast (pre.foldl keepLast p) r = r := by
      generalize pre.foldl keepLast p = q at hl
      simp [keepLast, hl]
    rw [List.cons_append] at hlen ⊢
    rw [mostRecentDbSnapshot_cons longSort p (pre ++ r :: post) hlen]
    simp [List.foldl_append, hh, hstay]

/-- C9, the counterexample: of two records without a timestamp, which are tied,
`mostRecentDbSnapshot` returns the one that comes first in the input, not the last. -/
theorem mostRecentDbSnapshot_tie_first :
    mostRecentDbSnapshot noSwaps
        [snapshotOf (some "a") none none, snapshotOf (some "b") none none] =
        some (snapshotOf (some "a") none none) ∧
      snapshotOf (some "a") none none ≠ snapshotOf (some "b") none none := by
  decide

/-- C9, as amended: on a non-empty list of at most `insertionOnly` records, when the record
`r` carries the latest timestamp, no later record of the input reaches that timestamp and
no earlier one exceeds it (so `r` is the last of the records tied for the latest
timestamp), `mostRecentDbSnapshot` returns `r`; and when no record of the list has a
timestamp it returns the first record of the input. -/
theorem mostRecentDbSnapshot_ties (longSort : LongSort) (snapshots : List DBSnapshot)
    (hne : snapshots ≠ []) (hlen : snapshots.length ≤ insertionOnly) :
    (∀ pre post r t, snapshots = pre ++ r :: post → r.SnapshotCreateTime = some t →
      (∀ x ∈ pre, ∀ tx, x.SnapshotCreateTime = some tx → Time.Before t tx = false) →
      (∀ x ∈ post, ∀ tx, x.SnapshotCreateTime = some tx → Time.Before tx t = true) →
      mostRecentDbSnapshot longSort snapshots = some r) ∧
    ((∀ x ∈ snapshots, x.SnapshotCreateTime = none) →
      mostRecentDbSnapshot longSort snapshots = snapshots.head?) := by
  constructor
  · intro pre post r t hsplit hr hpre hpost
    rw [hsplit] at hlen ⊢
    exact mostRecentDbSnapshot_split longSort pre post r t hlen hr hpre hpost
  · intro hnone
    cases snapshots with
    | nil => exact absurd rfl hne
    | cons x rest =>
      rw [mostRecentDbSnapshot_cons longSort x rest hlen, List.head?_cons]
      congr 1
      apply foldl_keepLast_stay
      intro y hy
      simp [rdsSnapshotSort.Less, hnone y (List.mem_cons_of_mem _ hy)]

/-- The witness of C9: of three records, two tied at the latest timestamp. -/
theorem mostRecentDbSnapshot_ties_witness :
    [snapshotOf (some "a") none (some 5), snapshotOf (some "b") none (some 5),
        snapshotOf (some "c") none (some 1)] ≠ [] ∧
    [snapshotOf (some "a") none (some 5), snapshotOf (some "b") none (some 5),
        snapshotOf (some "c") none (some 1)].length ≤ insertionOnly ∧
    mostRecentDbSnapshot noSwaps
        [snapshotOf (some "a") none (some 5), snapshotOf (some "b") none (some 5),
          snapshotOf (some "c") none (some 1)] = some (snapshotOf (some "b") none (some 5)) :=
  ⟨by simp, by simp [insertionOnly],
    (mostRecentDbSnapshot_ties noSwaps _ (by simp) (by simp [insertionOnly])).1
    [snapshotOf (some "a") none (some 5)] [snapshotOf (some "c") none (some 1)]
    (snapshotOf (some "b") none (some 5)) 5 rfl rfl
    (by simp [snapshotOf, Time.Before]) (by simp [snapshotOf, Time.Before])⟩

/-! ## Deletion with retry -/

theorem ErrMessageContains_code (e : GoError) (code : String) :
    ErrMessageContains (some e) code "" = true ↔ ∃ m, e = GoError.aws code m := by
  cases e with
  | aws c m =>
    have h : stringsContains m "" = true := by
      simp [stringsContains]
    simp [ErrMessageContains, h]
  | plain t => simp [ErrMessageContains]

theorem deleteAttempt_inUse (err : Option GoError)
    (h : ErrMessageContains err "SnapshotInUse" "" = true) :
    deleteAttempt err =
      some (RetryableError (GoError.plain "RDS SnapshotInUse - trying again while it detaches")) := by
  cases err with
  | none => simp [ErrMessageContains] at h
  | some e => simp [deleteAttempt, h]

/-- A call that reports the snapshot in use uses up one call of the window. -/
theorem Retry_inUse (conn : Nat → Option GoError) (b c : Nat) (resultErr : Option GoError)
    (h : ErrMessageContains (conn c) "SnapshotInUse" "" = true) :
    Retry (fun j => deleteAttempt (conn j)) (b + 1) c resultErr =
      Retry (fun j => deleteAttempt (conn j)) b (c + 1)
        (some (GoError.plain "RDS SnapshotInUse - trying again while it detaches")) := by
  simp [Retry, deleteAttempt_inUse _ h, RetryableError]

/-- With room for a further call, the error of the last call that returned plays no
part. -/
theorem Retry_succ_irrel (f : Nat → Option RetryError) (b c : Nat)
    (e1 e2 : Option GoError) : Retry f (b + 1) c e1 = Retry f (b + 1) c e2 := by
  simp [Retry]

theorem Retry_skip (conn : Nat → Option GoError) (b : Nat) :
    ∀ (k c : Nat) (resultErr : Option GoError),
      (∀ i, i < k → ErrMessageContains (conn (c + i)) "SnapshotInUse" "" = true) →
      Retry (fun j => deleteAttempt (conn j)) (k + (b + 1)) c resultErr =
        Retry (fun j => deleteAttempt (conn j)) (b + 1) (c + k) none := by
  intro k
  induction k with
  | zero =>
    intro c resultErr _
    simp only [Nat.zero_add, Nat.add_zero]
    exact Retry_succ_irrel _ _ _ _ _
  | succ k ih =>
    intro c resultErr h
    have h0 : ErrMessageContains (conn c) "SnapshotInUse" "" = true := by
      simpa using h 0 (Nat.succ_pos k)
    have hrest : ∀ i, i < k → ErrMessageContains (conn (c + 1 + i)) "SnapshotInUse" "" = true := by
      intro i hi
      have := h (i + 1) (Nat.succ_lt_succ hi)
      rwa [show c + (i + 1) = c + 1 + i by omega] at this
    rw [show k + 1 + (b + 1) = (k + (b + 1)) + 1 by omega, Retry_inUse conn _ c resultErr h0,
      ih (c + 1) _ hrest]
    congr 1
    omega

theorem Retry_calls (f : Nat → Option RetryError) :
    ∀ (b c : Nat) (resultErr : Option GoError), c ≤ (Retry f b c resultErr).2 := by
  intro b
  induction b with
  | zero =>
    intro c resultErr
    cases resultErr <;> simp [Retry]
  | succ b ih =>
    intro c resultErr
    cases hf : f c with
    | none => simp [Retry, hf]
    | some rerr =>
      by_cases hr : rerr.Retryable = true
      · have h1 := ih (c + 1) (some rerr.Err)
        simp only [Retry, hf, hr, if_true]
        omega
      · simp [Retry, hf, hr]

theorem delete_of_retry (budget : Nat) (conn : Nat → Option GoError) (result : RetryResult)
    (calls : Nat)
    (h : Retry (fun k => deleteAttempt (conn k)) budget 0 none = (result, calls)) :
    resourceSnapshotCopyDelete budget conn =
      if TimedOut result then
        if ErrMessageContains (conn calls) "InvalidDBSnapshot.NotFound" "" then (none, calls + 1)
        else deleteResult (conn calls) (calls + 1)
      else deleteResult result.err calls := by
  simp [resourceSnapshotCopyDelete, h]

/-- The operation makes at least the delete calls of its retry. -/
theorem delete_calls (budget : Nat) (conn : Nat → Option GoError) :
    (Retry (fun k => deleteAttempt (conn k)) budget 0 none).2 ≤
      (resourceSnapshotCopyDelete budget conn).2 := by
  rw [delete_of_retry budget conn _ _ (Prod.mk.eta).symm]
  split
  · split
    · simp
    · cases conn (Retry (fun k => deleteAttempt (conn k)) budget 0 none).2 <;>
        simp [deleteResult]
  · cases (Retry (fun k => deleteAttempt (conn k)) budget 0 none).1.err <;>
      simp [deleteResult]

theorem Retry_window (budget k : Nat) (conn : Nat → Option GoError) (hk : k < budget)
    (hprev : ∀ i, i < k → ErrMessageContains (conn i) "SnapshotInUse" "" = true) :
    Retry (fun j => deleteAttempt (conn j)) budget 0 none =
      Retry (fun j => deleteAttempt (conn j)) (budget - k - 1 + 1) k none := by
  have h := Retry_skip conn (budget - k - 1) k 0 none
    (fun i hi => by
      simp only [Nat.zero_add]
      exact hprev i hi)
  rw [show k + (budget - k - 1 + 1) = budget by omega, Nat.zero_add] at h
  exact h

theorem deleteMessage_inUse :
    "Error deleting RDS snapshot copy: " ++
        (GoError.plain "RDS SnapshotInUse - trying again while it detaches").Error =
      "Error deleting RDS snapshot copy: RDS SnapshotInUse - trying again while it detaches" := by
  decide

/-- C4, the counterexample: the only call of a window of one reports the snapshot in use
and is not retried, although the next call would succeed: the operation ends with the
in-use error after one call. And a call that fails with `InvalidDBSnapshot.NotFound`, the
not-found code of the final attempt and of the read, ends the operation with an error. -/
theorem resourceSnapshotCopyDelete_window_end :
    resourceSnapshotCopyDelete 1 (inUseThen 1 none) =
      (some (GoError.plain
        "Error deleting RDS snapshot copy: RDS SnapshotInUse - trying again while it detaches"),
        1) ∧
    resourceSnapshotCopyDelete 3
        (inUseThen 0 (some (GoError.aws "InvalidDBSnapshot.NotFound" "snapshot not found"))) =
      (some (GoError.plain
        "Error deleting RDS snapshot copy: InvalidDBSnapshot.NotFound: snapshot not found"),
        1) := by
  decide

/-- C4, as amended: for a delete call made inside the retry window of
`resourceSnapshotCopyDelete` (the call number `k` of a window in which more than `k` calls
return, all earlier calls having reported the snapshot in use): when it succeeds the
operation ends with success after that call; when it reports the snapshot in use (the code
`SnapshotInUse`) a further delete call follows if the window has room for one, and
otherwise the operation ends after that call with the in-use error; and when it fails
with an error that is neither in-use nor one of the two not-found codes the operation ends
after that call with that error, wrapped in the message of the resource. -/
theorem resourceSnapshotCopyDelete_window (budget k : Nat) (conn : Nat → Option GoError)
    (hk : k < budget)
    (hprev : ∀ i, i < k → ErrMessageContains (conn i) "SnapshotInUse" "" = true) :
    (conn k = none → resourceSnapshotCopyDelete budget conn = (none, k + 1)) ∧
    (ErrMessageContains (conn k) "SnapshotInUse" "" = true → k + 1 < budget →
      k + 2 ≤ (resourceSnapshotCopyDelete budget conn).2) ∧
    (ErrMessageContains (conn k) "SnapshotInUse" "" = true → k + 1 = budget →
      resourceSnapshotCopyDelete budget conn =
        (some (GoError.plain
          "Error deleting RDS snapshot copy: RDS SnapshotInUse - trying again while it detaches"),
          k + 1)) ∧
    (∀ e, conn k = some e → ErrMessageContains (some e) "SnapshotInUse" "" = false →
      ErrMessageContains (some e) "InvalidSnapshot.NotFound" "" = false →
      ErrMessageContains (some e) "InvalidDBSnapshot.NotFound" "" = false →
      resourceSnapshotCopyDelete budget conn =
        (some (GoError.plain ("Error deleting RDS snapshot copy: " ++ e.Error)), k + 1)) := by
  have hwin := Retry_window budget k conn hk hprev
  refine ⟨?_, ?_, ?_, ?_⟩
  · intro h
    have hret : Retry (fun j => deleteAttempt (conn j)) budget 0 none =
        (RetryResult.success, k + 1) := by
      rw [hwin]
      simp [Retry, deleteAttempt, h]
    rw [delete_of_retry budget conn _ _ hret]
    simp [TimedOut, RetryResult.err, deleteResult]
  · intro h hroom
    have hret : Retry (fun j => deleteAttempt (conn j)) budget 0 none =
        Retry (fun j => deleteAttempt (conn j)) (budget - k - 2 + 1) (k + 1)
          (some (GoError.plain "RDS SnapshotInUse - trying again while it detaches")) := by
      rw [hwin, Retry_inUse conn _ k none h]
      congr 1
      omega
    have hnext : k + 1 + 1 ≤
        (Retry (fun j => deleteAttempt (conn j)) (budget - k - 2 + 1) (k + 1)
          (some (GoError.plain "RDS SnapshotInUse - trying again while it detaches"))).2 := by
      cases hf : deleteAttempt (conn (k + 1)) with
      | none => simp [Retry, hf]
      | some rerr =>
        by_cases hr : rerr.Retryable = true
        · have h1 := Retry_calls (fun j => deleteAttempt (conn j)) (budget - k - 2) (k + 1 + 1)
            (some rerr.Err)
          simp only [Retry, hf, hr, if_true]
          exact h1
        · simp [Retry, hf, hr]
    have hcalls := delete_calls budget conn
    rw [hret] at hcalls
    omega
  · intro h hend
    have hret : Retry (fun j => deleteAttempt (conn j)) budget 0 none =
        (RetryResult.failed
          (GoError.plain "RDS SnapshotInUse - trying again while it detaches"), k + 1) := by
      rw [hwin, Retry_inUse conn _ k none h, show budget - k - 1 = 0 by omega]
      rfl
    rw [delete_of_retry budget conn _ _ hret]
    simp only [TimedOut, RetryResult.err, deleteResult, deleteMessage_inUse]
    rfl
  · intro e he hin hnf _
    have hattempt : deleteAttempt (conn k) = some (NonRetryableError e) := by
      simp [deleteAttempt, he, hin, hnf]
    have hret : Retry (fun j => deleteAttempt (conn j)) budget 0 none =
        (RetryResult.failed e, k + 1) := by
      rw [hwin]
      simp [Retry, hattempt, NonRetryableError]
    rw [delete_of_retry budget conn _ _ hret]
    simp [TimedOut, RetryResult.err, deleteResult]

/-- The witness of C4: in a window of three calls the first call reports the snapshot in
use and the second succeeds; the operation succeeds after two calls. -/
theorem resourceSnapshotCopyDelete_window_witness :
    1 < 3 ∧
    (∀ i, i < 1 → ErrMessageContains (inUseThen 1 none i) "SnapshotInUse" "" = true) ∧
    resourceSnapshotCopyDelete 3 (inUseThen 1 none) = (none, 2) :=
  ⟨by decide, by decide,
    (resourceSnapshotCopyDelete_window 3 1 (inUseThen 1 none) (by decide) (by decide)).1
      (by decide)⟩

/-- C5, the counterexample: every call of a window of three reports the snapshot in use;
no fourth call is made, although it would succeed, and the operation ends with the in-use
error after three calls. -/
theorem resourceSnapshotCopyDelete_no_final :
    resourceSnapshotCopyDelete 3 (inUseThen 3 none) =
      (some (GoError.plain
        "Error deleting RDS snapshot copy: RDS SnapshotInUse - trying again while it detaches"),
        3) := by
  decide

/-- C5, as amended: when the delete calls that return inside the retry window of
`resourceSnapshotCopyDelete`, at least one, all report the snapshot in use, the operation
makes no further delete call once the window has closed: it has made as many calls as the
window had room for and returns the in-use error, wrapped in the message of the
resource. -/
theorem resourceSnapshotCopyDelete_exhausted (budget : Nat) (conn : Nat → Option GoError)
    (hbudget : 0 < budget)
    (hall : ∀ i, i < budget → ErrMessageContains (conn i) "SnapshotInUse" "" = true) :
    resourceSnapshotCopyDelete budget conn =
      (some (GoError.plain
        "Error deleting RDS snapshot copy: RDS SnapshotInUse - trying again while it detaches"),
        budget) := by
  have hwin := Retry_window budget (budget - 1) conn (by omega)
    (fun i hi => hall i (by omega))
  have hlast : ErrMessageContains (conn (budget - 1)) "SnapshotInUse" "" = true :=
    hall (budget - 1) (by omega)
  have hret : Retry (fun j => deleteAttempt (conn j)) budget 0 none =
      (RetryResult.failed
        (GoError.plain "RDS SnapshotInUse - trying again while it detaches"), budget) := by
    rw [hwin, Retry_inUse conn _ (budget - 1) none hlast,
      show budget - (budget - 1) - 1 = 0 by omega, show budget - 1 + 1 = budget by omega]
    rfl
  rw [delete_of_retry budget conn _ _ hret]
  simp only [TimedOut, RetryResult.err, deleteResult, deleteMessage_inUse]
  rfl

/-- The witness of C5: a window of two calls, both in use, and a backend whose next answer
would be not-found. -/
theorem resourceSnapshotCopyDelete_exhausted_witness :
    0 < 2 ∧
    (∀ i, i < 2 → ErrMessageContains
      (inUseThen 2 (some (GoError.aws "InvalidSnapshot.NotFound" "snapshot not found")) i)
      "SnapshotInUse" "" = true) ∧
    resourceSnapshotCopyDelete 2
        (inUseThen 2 (some (GoError.aws "InvalidSnapshot.NotFound" "snapshot not found"))) =
      (some (GoError.plain
        "Error deleting RDS snapshot copy: RDS SnapshotInUse - trying again while it detaches"),
        2) :=
  ⟨by decide, by decide,
    resourceSnapshotCopyDelete_exhausted 2
      (inUseThen 2 (some (GoError.aws "InvalidSnapshot.NotFound" "snapshot not found")))
      (by decide) (by decide)⟩

/-- When no delete call returns inside the retry window, the pending call is followed by
one final delete call, which decides the result: success when it succeeds or fails with
the code `InvalidDBSnapshot.NotFound`, its wrapped error otherwise. -/
theorem resourceSnapshotCopyDelete_pending (conn : Nat → Option GoError) :
    resourceSnapshotCopyDelete 0 conn =
      if ErrMessageContains (conn 1) "InvalidDBSnapshot.NotFound" "" then (none, 2)
      else deleteResult (conn 1) 2 := by
  rw [delete_of_retry 0 conn RetryResult.timedOut 1 rfl]
  simp [TimedOut]

/-! ## The copy request -/

/-- C6, the counterexample: the caller sets the tag-copy flag (to `false`) and the KMS key
(to the empty string), and the request carries neither. -/
theorem copyRequest_zero_absent :
    copyConfigZero.copy_tags = some false ∧ copyConfigZero.kms_key_id = some "" ∧
    (copyRequest some copyConfigZero).CopyTags = none ∧
    (copyRequest some copyConfigZero).KmsKeyId = none := by
  decide

theorem GetOkString_carried (x : Option String) (v : String) :
    (if (GetOkString x).2 = true then some (GetOkString x).1 else none) = some v ↔
      x = some v ∧ v ≠ "" := by
  cases x with
  | none => simp [GetOkString]
  | some w =>
    by_cases hw : w = ""
    · subst hw
      have : ¬ ("" = v ∧ v ≠ "") := fun h => h.2 h.1.symm
      simpa [GetOkString] using this
    · have : w = v ↔ w = v ∧ v ≠ "" :=
        ⟨fun h => ⟨h, h ▸ hw⟩, fun h => h.1⟩
      simpa [GetOkString, hw] using this

theorem GetOkBool_carried (x : Option Bool) (v : Bool) :
    (if (GetOkBool x).2 = true then some (GetOkBool x).1 else none) = some v ↔
      x = some v ∧ v = true := by
  cases x with
  | none => simp [GetOkBool]
  | some w => cases w <;> cases v <;> simp [GetOkBool]

/-- The request of `copyRequest` in closed form. -/
theorem copyRequest_eq (toTags : TagMap → Option TagMap) (d : SnapshotCopyConfig) :
    copyRequest toTags d =
      { SourceRegion := some (GetString d.source_region)
        SourceDBSnapshotIdentifier := some (GetString d.source_db_snapshot_identifier)
        TargetDBSnapshotIdentifier := some (GetString d.target_db_snapshot_identifier)
        Tags := toTags (GetMap d.tags)
        CopyTags := if (GetOkBool d.copy_tags).2 = true then some (GetOkBool d.copy_tags).1 else none
        KmsKeyId :=
          if (GetOkString d.kms_key_id).2 = true then some (GetOkString d.kms_key_id).1 else none
        OptionGroupName :=
          if (GetOkString d.option_group_name).2 = true then
            some (GetOkString d.option_group_name).1 else none
        DestinationRegion :=
          if (GetOkString d.destination_region).2 = true then
            some (GetOkString d.destination_region).1 else none
        PreSignedUrl :=
          if (GetOkString d.presigned_url).2 = true then
            some (GetOkString d.presigned_url).1 else none } := by
  unfold copyRequest
  generalize GetOkBool d.copy_tags = p1
  generalize GetOkString d.kms_key_id = p2
  generalize GetOkString d.option_group_name = p3
  generalize GetOkString d.destination_region = p4
  generalize GetOkString d.presigned_url = p5
  rcases p1 with ⟨v1, b1⟩
  rcases p2 with ⟨v2, b2⟩
  rcases p3 with ⟨v3, b3⟩
  rcases p4 with ⟨v4, b4⟩
  rcases p5 with ⟨v5, b5⟩
  cases b1 <;> cases b2 <;> cases b3 <;> cases b4 <;> cases b5 <;> rfl

/-- C6, as amended: the copy request always carries the source region, the source
identifier and the target identifier (the configured values), and its tags are always the
conversion of the configured tag map, the empty map when no tags are set; it carries the
destination region, the KMS key, the option group and the pre-signed URL exactly when the
attribute is set to a non-empty string, and the tag-copy flag exactly when it is set to
`true`, each with the value of the caller; otherwise the field is absent. -/
theorem copyRequest_fields (toTags : TagMap → Option TagMap) (d : SnapshotCopyConfig) :
    (copyRequest toTags d).SourceRegion = some (GetString d.source_region) ∧
    (copyRequest toTags d).SourceDBSnapshotIdentifier =
      some (GetString d.source_db_snapshot_identifier) ∧
    (copyRequest toTags d).TargetDBSnapshotIdentifier =
      some (GetString d.target_db_snapshot_identifier) ∧
    (copyRequest toTags d).Tags = toTags (GetMap d.tags) ∧
    (∀ v, (copyRequest toTags d).DestinationRegion = some v ↔
      d.destination_region = some v ∧ v ≠ "") ∧
    (∀ v, (copyRequest toTags d).KmsKeyId = some v ↔ d.kms_key_id = some v ∧ v ≠ "") ∧
    (∀ v, (copyRequest toTags d).OptionGroupName = some v ↔
      d.option_group_name = some v ∧ v ≠ "") ∧
    (∀ v, (copyRequest toTags d).PreSignedUrl = some v ↔ d.presigned_url = some v ∧ v ≠ "") ∧
    (∀ v, (copyRequest toTags d).CopyTags = some v ↔ d.copy_tags = some v ∧ v = true) := by
  rw [copyRequest_eq]
  exact ⟨rfl, rfl, rfl, rfl, fun v => GetOkString_carried _ v, fun v => GetOkString_carried _ v,
    fun v => GetOkString_carried _ v, fun v => GetOkString_carried _ v,
    fun v => GetOkBool_carried _ v⟩

/-! ## Reading a snapshot copy -/

/-- When the describe call reports `InvalidDBSnapshot.NotFound`, `resourceSnapshotCopyRead`
clears the identifier of the resource and returns no error. -/
theorem resourceSnapshotCopyRead_notFound (d : SnapshotCopyData)
    (describe : DescribeDBSnapshotsInput → List DBSnapshot × Option GoError)
    (listTags : String → Except GoError TagMap) (ignoreTags : TagMap → TagMap)
    (h : ∀ req, ErrMessageContains (describe req).2 "InvalidDBSnapshot.NotFound" "" = true) :
    resourceSnapshotCopyRead d describe listTags ignoreTags = Run.ok { d with Id := "" } := by
  simp [resourceSnapshotCopyRead, h]

/-- When the describe call fails with an error that is not `InvalidDBSnapshot.NotFound` and
its response holds no record, `resourceSnapshotCopyRead` panics. -/
theorem resourceSnapshotCopyRead_other_error (d : SnapshotCopyData)
    (describe : DescribeDBSnapshotsInput → List DBSnapshot × Option GoError)
    (listTags : String → Except GoError TagMap) (ignoreTags : TagMap → TagMap)
    (herr : ∀ req, ErrMessageContains (describe req).2 "InvalidDBSnapshot.NotFound" "" = false)
    (hres : ∀ req, (describe req).1 = []) :
    resourceSnapshotCopyRead d describe listTags ignoreTags = Run.panicked := by
  simp [resourceSnapshotCopyRead, herr, hres]

/-- C8: when the describe call fails with an error other than not-found (here a
throttling error, with no record in the response), `resourceSnapshotCopyRead` does not
return that error: it goes on to `res.DBSnapshots[0]` and panics. -/
theorem resourceSnapshotCopyRead_error_panics :
    resourceSnapshotCopyRead { Id := "dst-1", kms_key_id := none, tags := [] } describeThrottled
      (fun _ => Except.ok []) (fun tags => tags) = Run.panicked := by
  decide

/-! ## The two instance filters of the lookup -/

theorem sharedOrPublic_iff (d : SnapshotLookup) :
    sharedOrPublic d = true ↔
      d.snapshot_type = some "public" ∨ d.snapshot_type = some "shared" ∨
        d.include_public = true ∨ d.include_shared = true := by
  cases ht : d.snapshot_type with
  | none => simp [sharedOrPublic, GetOkString, ht]
  | some t => simp [sharedOrPublic, GetOkString, ht, or_assoc]

theorem describeParams_instance (d : SnapshotLookup) :
    (describeParams d).DBInstanceIdentifier =
      if (GetOkString d.db_instance_identifier).2 = true then
        if sharedOrPublic d = true then none else some (GetOkString d.db_instance_identifier).1
      else none := by
  unfold describeParams
  generalize GetOkString d.db_instance_identifier = p1
  generalize GetOkString d.db_snapshot_identifier = p2
  generalize GetOkString d.snapshot_type = p3
  rcases p1 with ⟨v1, b1⟩
  rcases p2 with ⟨v2, b2⟩
  rcases p3 with ⟨v3, b3⟩
  cases b1 <;> rfl

theorem candidates_of_query (d : SnapshotLookup)
    (conn : DescribeDBSnapshotsInput → List (List DBSnapshot) × Option GoError)
    (pages : List (List DBSnapshot)) (hq : conn (describeParams d) = (pages, none)) :
    candidates d conn =
      if (!(GetOkString d.db_instance_identifier).2 && !(GetOkString d.db_snapshot_identifier).2)
          = true then
        Run.error errNoCriteria
      else if (sharedOrPublic d && (GetOkString d.db_instance_identifier).2) = true then
        match filterSnapshotsByInstanceId (pages.foldl (fun acc page => acc ++ page) [])
            (GetOkString d.db_instance_identifier).1 with
        | some filtered => Run.ok filtered
        | none => Run.panicked
      else Run.ok (pages.foldl (fun acc page => acc ++ page) []) := by
  unfold candidates
  rw [hq]

/-- C11: for every lookup configuration of `dataSourceSnapshotRead` and every remote query
that succeeds. When the instance identifier is set (to a non-empty string, which is what
`d.GetOk` reports as set), exactly one instance filter is in force: if `snapshot_type` is
`public` or `shared`, or `include_public` or `include_shared` is true, the request carries
no instance identifier and the candidates are the result of `filterSnapshotsByInstanceId`
on the records delivered; otherwise the request carries the instance identifier and the
candidates are the records delivered, unfiltered; so the identifier is in the request
exactly when the client-side condition does not hold. When no instance identifier is set,
the request carries none and the records delivered are not filtered (the lookup fails
before the query when no snapshot identifier is set either). -/
theorem dataSourceSnapshotRead_instance_filter (d : SnapshotLookup)
    (conn : DescribeDBSnapshotsInput → List (List DBSnapshot) × Option GoError)
    (pages : List (List DBSnapshot)) (hq : conn (describeParams d) = (pages, none)) :
    (∀ id, GetOkString d.db_instance_identifier = (id, true) →
      ((d.snapshot_type = some "public" ∨ d.snapshot_type = some "shared" ∨
          d.include_public = true ∨ d.include_shared = true) →
        (describeParams d).DBInstanceIdentifier = none ∧
        candidates d conn =
          match filterSnapshotsByInstanceId (pages.foldl (fun acc page => acc ++ page) []) id with
          | some filtered => Run.ok filtered
          | none => Run.panicked) ∧
      (¬ (d.snapshot_type = some "public" ∨ d.snapshot_type = some "shared" ∨
          d.include_public = true ∨ d.include_shared = true) →
        (describeParams d).DBInstanceIdentifier = some id ∧
        candidates d conn = Run.ok (pages.foldl (fun acc page => acc ++ page) [])) ∧
      ((describeParams d).DBInstanceIdentifier = some id ↔
        ¬ (d.snapshot_type = some "public" ∨ d.snapshot_type = some "shared" ∨
          d.include_public = true ∨ d.include_shared = true))) ∧
    ((GetOkString d.db_instance_identifier).2 = false →
      (describeParams d).DBInstanceIdentifier = none ∧
      candidates d conn =
        if (GetOkString d.db_snapshot_identifier).2 = true then
          Run.ok (pages.foldl (fun acc page => acc ++ page) [])
        else Run.error errNoCriteria) := by
  have hcand := candidates_of_query d conn pages hq
  have hparam := describeParams_instance d
  constructor
  · intro id hid
    have hok : (GetOkString d.db_instance_identifier).2 = true := by rw [hid]
    have hval : (GetOkString d.db_instance_identifier).1 = id := by rw [hid]
    rw [hok, hval] at hcand hparam
    refine ⟨?_, ?_, ?_⟩
    · intro hsp
      have h := (sharedOrPublic_iff d).2 hsp
      rw [h] at hcand hparam
      exact ⟨by simpa using hparam, by simpa using hcand⟩
    · intro hsp
      have h : sharedOrPublic d = false := by
        cases hb : sharedOrPublic d with
        | false => rfl
        | true => exact absurd ((sharedOrPublic_iff d).1 hb) hsp
      rw [h] at hcand hparam
      exact ⟨by simpa using hparam, by simpa using hcand⟩
    · rw [← sharedOrPublic_iff]
      cases hb : sharedOrPublic d with
      | false => rw [hb] at hparam; simpa using hparam
      | true =>
        rw [hb] at hparam
        simp only [if_true] at hparam
        simp [hparam]
  · intro hno
    rw [hno] at hcand hparam
    refine ⟨by simpa using hparam, ?_⟩
    rw [hcand]
    cases hs : (GetOkString d.db_snapshot_identifier).2 <;> simp

/-- The witness of C11: the shared lookup by instance `db-1` sends no instance identifier
and filters the three records delivered on the client side. -/
theorem dataSourceSnapshotRead_instance_filter_witness :
    pagesThree (describeParams lookupShared) =
        ([[snapshotOf (some "a") (some "db-1") (some 1),
            snapshotOf (some "b") (some "db-2") (some 9)],
          [snapshotOf (some "c") (some "db-1") (some 5)]], none) ∧
    GetOkString lookupShared.db_instance_identifier = ("db-1", true) ∧
    (describeParams lookupShared).DBInstanceIdentifier = none ∧
    candidates lookupShared pagesThree =
      match filterSnapshotsByInstanceId
          ([[snapshotOf (some "a") (some "db-1") (some 1),
              snapshotOf (some "b") (some "db-2") (some 9)],
            [snapshotOf (some "c") (some "db-1") (some 5)]].foldl
              (fun acc page => acc ++ page) []) "db-1" with
      | some filtered => Run.ok filtered
      | none => Run.panicked :=
  ⟨rfl, by decide,
    (((dataSourceSnapshotRead_instance_filter lookupShared pagesThree _ rfl).1 "db-1"
      (by decide)).1 (Or.inr (Or.inr (Or.inr rfl))))⟩

end Rds
